import Mathlib

/-!
Verification of the Johnny.Decimal ID allocation and categorization engine
(`src/johnny_decimal_processing.py`) of the Local-File-Organizer repository.

The Python code is shallowly embedded: strings are Lean `String` (a list of
characters, matching Python's sequence-of-code-points view for the ASCII data
the engine manipulates), the `os.path` helpers used by the code are modelled
as executable functions below, the mutable organizer object is threaded as an
explicit `Organizer` value, and a raised `ValueError` / `KeyError` becomes an
`Except` error value.

`sanitize_filename` is imported by the source from `data_processing_common`,
a module that is not part of the sources under verification; the spec treats
it as an external, deterministic, pure `sanitize(text, maxWords)` function,
so every definition that needs it takes it as an explicit parameter.
-/

/-! ## Python string primitives (on `List Char`) -/

/-- `startsWithL pre s` : does `s` start with `pre`?  Models Python
`str.startswith` (on the code-point sequence). -/
def startsWithL : List Char → List Char → Bool
  | [], _ => true
  | _ :: _, [] => false
  | a :: as, b :: bs => a == b && startsWithL as bs

/-- `hasSubL sub s` : does `sub` occur as a contiguous substring of `s`?
Models Python's `sub in s`. -/
def hasSubL (sub : List Char) : List Char → Bool
  | [] => startsWithL sub []
  | c :: cs => startsWithL sub (c :: cs) || hasSubL sub cs

/-- Models Python `s.split('.')`. -/
def splitDotL : List Char → List (List Char)
  | [] => [[]]
  | c :: cs =>
    if c == '.' then [] :: splitDotL cs
    else
      match splitDotL cs with
      | [] => [[c]]
      | g :: gs => (c :: g) :: gs

/-- Models POSIX `os.path.basename`: everything after the last `'/'`. -/
def basenameL (l : List Char) : List Char :=
  (l.reverse.takeWhile (fun c => c ≠ '/')).reverse

/-- Models `os.path.splitext` (POSIX): split off the extension beginning at
the last `'.'` of the base name, unless all characters before that dot in the
base name are themselves dots (so `.bashrc` has no extension). -/
def pySplitextL (p : List Char) : List Char × List Char :=
  let b := basenameL p
  let pre := p.take (p.length - b.length)
  let r := b.reverse
  let afterDot := r.takeWhile (fun c => c ≠ '.')
  if afterDot.length = r.length then (p, [])
  else
    let rootRev := r.drop (afterDot.length + 1)
    if rootRev.any (fun c => c ≠ '.') then
      (pre ++ rootRev.reverse, '.' :: afterDot.reverse)
    else (p, [])

/-! ## String wrappers -/

/-- Models Python `str.lower` (the engine only handles ASCII names). -/
def pyLower (s : String) : String := ⟨s.data.map Char.toLower⟩

/-- Models `os.path.basename`. -/
def pyBasename (s : String) : String := ⟨basenameL s.data⟩

/-- Models `os.path.splitext` (root, extension). -/
def pySplitext (s : String) : String × String :=
  let p := pySplitextL s.data
  (⟨p.1⟩, ⟨p.2⟩)

/-- Models Python `sub in s` on strings. -/
def pyInStr (sub s : String) : Bool := hasSubL sub.data s.data

/-- Models Python `s.startswith(pre)`. -/
def pyStartsWith (s pre : String) : Bool := startsWithL pre.data s.data

/-- Models Python `s.split('.')`. -/
def pySplitDot (s : String) : List String :=
  (splitDotL s.data).map fun l => (⟨l⟩ : String)

/-- Models `os.path.join` for two POSIX components. -/
def pyJoin (a b : String) : String :=
  if pyStartsWith b "/" then b
  else if a = "" then b
  else if a.data.getLast? = some '/' then a ++ b
  else a ++ "/" ++ b

/-! ## Decimal rendering and parsing (Python `str(n)`, `int(s)`, `f"{n:02d}"`) -/

/-- The decimal digit character for `d % 10`. -/
def digitChr : Nat → Char
  | 0 => '0' | 1 => '1' | 2 => '2' | 3 => '3' | 4 => '4'
  | 5 => '5' | 6 => '6' | 7 => '7' | 8 => '8' | _ => '9'

/-- Fuel-driven decimal rendering accumulator. -/
def natToCharsGo : Nat → Nat → List Char → List Char
  | 0, _, acc => acc
  | fuel + 1, n, acc =>
    if n < 10 then digitChr n :: acc
    else natToCharsGo fuel (n / 10) (digitChr (n % 10) :: acc)

/-- Decimal rendering of a natural number; models Python `str(n)` for `n ≥ 0`. -/
def natToChars (n : Nat) : List Char := natToCharsGo (n + 1) n []

/-- Models Python `str(n)` as a `String`. -/
def natToStr (n : Nat) : String := ⟨natToChars n⟩

/-- Models Python `f"{n:02d}"` for `n ≥ 0`: pad to two digits with `'0'`. -/
def pad2chars (n : Nat) : List Char :=
  if n < 10 then '0' :: natToChars n else natToChars n

/-- `f"{n:02d}"` as a `String`. -/
def pad2str (n : Nat) : String := ⟨pad2chars n⟩

/-- The numeric value of a decimal digit character, if it is one. -/
def chrDigit? (c : Char) : Option Nat :=
  if 48 ≤ c.toNat ∧ c.toNat ≤ 57 then some (c.toNat - 48) else none

/-- Accumulating decimal parser. -/
def digitsValGo : Nat → List Char → Option Nat
  | acc, [] => some acc
  | acc, c :: cs =>
    match chrDigit? c with
    | some d => digitsValGo (10 * acc + d) cs
    | none => none

/-- Models Python `int(s)` on the non-negative all-digit strings the allocator
stores (the only strings it is ever applied to); any other string fails, which
models the `ValueError` caught by the allocator's `try`/`except`. -/
def digitsVal : List Char → Option Nat
  | [] => none
  | c :: cs => digitsValGo 0 (c :: cs)

/-- `int(s)` on a `String`. -/
def pyIntOfStr (s : String) : Option Nat := digitsVal s.data

/-! ## The organizer state (`JohnnyDecimalOrganizer`) -/

/-- A Python exception value: the engine raises `ValueError` (caught per-file
by the orchestrator) and can raise `KeyError` on a missing-area lookup
(uncaught). -/
inductive PyErr where
  | valueError (msg : String)
  | keyError (msg : String)
deriving DecidableEq

/-- The mutable state of a `JohnnyDecimalOrganizer`: the `areas` and
`categories` dicts (insertion-ordered association lists, as Python dicts
with distinct keys) and the `assigned_ids` set (as the list of added IDs,
newest first; the code only reads it with order-insensitive folds). -/
structure Organizer where
  areas : List (Nat × String)
  categories : List (Nat × String)
  assigned : List String
deriving DecidableEq

/-- The built-in default `areas` dict of `JohnnyDecimalOrganizer.__init__`. -/
def defaultAreas : List (Nat × String) :=
  [(10, "Life admin"), (20, "Work"), (30, "Projects")]

/-- The built-in default `categories` dict of
`JohnnyDecimalOrganizer.__init__`, in source order. -/
def defaultCategories : List (Nat × String) :=
  [(0, "System management"), (1, "Life admin management"),
   (2, "Work management"), (3, "Projects management"),
   (10, "Me"), (11, "House"), (12, "Money"), (13, "Online"),
   (14, "Travel"), (15, "Health"),
   (20, "Current work"), (21, "Admin"), (22, "Clients"),
   (30, "Active"), (31, "Learning")]

/-- `JohnnyDecimalOrganizer._validate_areas`: `some errorMessage` when a
`ValueError` is raised, `none` when validation passes. -/
def validateAreas (areas : List (Nat × String)) : Option String :=
  if areas.length > 9 then
    some "Alternative Layout 1 allows maximum 9 areas (10-90)"
  else
    areas.findSome? fun kv =>
      if kv.1 % 10 ≠ 0 ∨ kv.1 < 10 ∨ kv.1 > 90 then
        some ("Area number " ++ natToStr kv.1 ++ " invalid. Must be 10, 20, 30, ..., 90")
      else none

/-- Python's `custom or default` idiom on an optional dict argument: `None`
and the empty dict are both falsy and select the default. -/
def resolveOpt (custom : Option (List (Nat × String))) (dflt : List (Nat × String)) :
    List (Nat × String) :=
  match custom with
  | some l => if l.isEmpty then dflt else l
  | none => dflt

/-- `JohnnyDecimalOrganizer.__init__`: set `areas` (defaulted), validate them
(raising `ValueError` on failure), set `categories` (defaulted) and the empty
`assigned_ids` set. -/
def initOrganizer (customAreas customCategories : Option (List (Nat × String))) :
    Except String Organizer :=
  let areas := resolveOpt customAreas defaultAreas
  match validateAreas areas with
  | some err => .error err
  | none =>
    .ok { areas, categories := resolveOpt customCategories defaultCategories, assigned := [] }

/-- The organizer built from the default areas and categories with no IDs
assigned yet. -/
def defaultOrganizer : Organizer :=
  { areas := defaultAreas, categories := defaultCategories, assigned := [] }

/-! ## The categorizer (`suggest_categorization`) -/

/-- The fixed `suggestions` dict of `suggest_categorization`, in source
(insertion) order.  Python dict iteration preserves insertion order, so the
scan order below is exactly the source's. -/
def suggestions : List (String × Nat) :=
  [("bank", 12), ("money", 12), ("finance", 12), ("tax", 12), ("insurance", 12),
   ("health", 15), ("medical", 15), ("fitness", 15), ("doctor", 15),
   ("passport", 10), ("personal", 10), ("identity", 10),
   ("house", 11), ("home", 11), ("utilities", 11), ("mortgage", 11),
   ("travel", 14), ("trip", 14), ("vacation", 14), ("flight", 14), ("hotel", 14),
   ("subscription", 13), ("account", 13), ("login", 13), ("online", 13),
   ("work", 20), ("project", 20), ("client", 22), ("meeting", 21), ("admin", 21),
   ("hobby", 30), ("learning", 31), ("creative", 30), ("side", 30)]

/-- The string the keyword scan searches:
`f"{content_lower} {file_name}"` with `file_name` the lower-cased base name. -/
def textToCheck (filePath contentDescription : String) : String :=
  pyLower contentDescription ++ " " ++ pyLower (pyBasename filePath)

/-- The keyword loop of `suggest_categorization`: the first table entry whose
keyword occurs in the text and whose category is a key of the `categories`
dict. -/
def findSuggestion (categories : List (Nat × String)) (text : String) :
    Option (String × Nat) :=
  suggestions.find? fun kv => pyInStr kv.1 text && (categories.lookup kv.2).isSome

/-- The Python `min(keys)` of a non-empty dict (the `[]` case is unreachable
at its call site, which tests non-emptiness first). -/
def minKeys : List (Nat × String) → Nat
  | [] => 0
  | kv :: rest => rest.foldl (fun m p => min m p.1) kv.1

/-- `JohnnyDecimalOrganizer.suggest_categorization`: returns
`(area, category, category_name)`.  The source computes `file_ext` from the
path but never uses it afterwards; the unused binding is kept below. -/
def suggestCategorization (org : Organizer) (filePath : String)
    (contentDescription : String) : Nat × Nat × String :=
  let _fileExt := pyLower (pySplitext filePath).2
  let text := textToCheck filePath contentDescription
  match findSuggestion org.categories text with
  | some kv =>
    let cat := kv.2
    let area := if 10 ≤ cat then cat / 10 * 10 else 0
    (area, cat, (org.categories.lookup cat).getD "")
  | none =>
    if org.categories.isEmpty then (10, 10, "Me")
    else
      let regular := org.categories.filter fun kv => 10 ≤ kv.1
      if regular.isEmpty then (10, 10, "Me")
      else
        let first := minKeys regular
        (first / 10 * 10, first, (regular.lookup first).getD "")

/-- The method call as a state transformer: `suggest_categorization` contains
no assignment to `self`, so its state-threaded form returns the organizer
unchanged. -/
def suggestCategorizationS (org : Organizer) (filePath contentDescription : String) :
    (Nat × Nat × String) × Organizer :=
  (suggestCategorization org filePath contentDescription, org)

/-! ## The ID allocator (`get_next_available_id`) -/

/-- One pass of the `for assigned_id in self.assigned_ids` loop body: parse an
assigned ID against this category — it must start with `f"{category}."` and
its `split('.')[1]` must parse as an int (`try`/`except` skips failures). -/
def parseIdNum (category : Nat) (idStr : String) : Option Nat :=
  if pyStartsWith idStr (natToStr category ++ ".") then
    match pySplitDot idStr with
    | _ :: second :: _ => pyIntOfStr second
    | _ => none
  else none

/-- The `max_id` fold of `get_next_available_id` over the assigned-ID set,
starting from `init = min_id - 1` (set iteration order is irrelevant to a
max). -/
def maxAssigned (category : Nat) (assigned : List String) (init : Int) : Int :=
  assigned.foldr
    (fun idStr m =>
      match parseIdNum category idStr with
      | some v => max m (v : Int)
      | none => m)
    init

/-- The rendered ID string `f"{category}.{n:02d}"`. -/
def idString (category n : Nat) : String :=
  ⟨natToChars category ++ '.' :: pad2chars n⟩

/-- The candidate next sequence number computed by `get_next_available_id`:
`max_id + 1`, clamped up to 10 for regular (non-system) categories. -/
def nextIdNum (assigned : List String) (category : Nat) : Int :=
  let minId : Int := if category ≤ 9 then 0 else 10
  let next := maxAssigned category assigned (minId - 1) + 1
  if category ≤ 9 then next
  else if next < 10 then 10 else next

/-- `JohnnyDecimalOrganizer.get_next_available_id`: the next ID string for a
category, or the `ValueError` message raised when the category's range
(ceiling 99) is exhausted. -/
def getNextAvailableId (assigned : List String) (category : Nat) :
    Except String String :=
  let next := nextIdNum assigned category
  if next > 99 then
    if category ≤ 9 then
      .error ("System category " ++ natToStr category ++ " has reached maximum of 99 items")
    else
      .error ("Category " ++ natToStr category ++ " has reached maximum of 90 items (.10-.99)")
  else .ok (idString category next.toNat)

/-! ## `assign_id` and the batch orchestrator (`process_files_johnny_decimal`) -/

/-- The category-selection prelude of `assign_id`: use the suggested category
when it is a key of the `categories` dict, otherwise fall back to
`suggest_categorization`. -/
def resolveCategory (org : Organizer) (filePath contentDescription : String)
    (suggestedCategory : Option Nat) : Nat × Nat × String :=
  match suggestedCategory with
  | some c =>
    match org.categories.lookup c with
    | some nm => (if 10 ≤ c then c / 10 * 10 else 0, c, nm)
    | none => suggestCategorization org filePath contentDescription
  | none => suggestCategorization org filePath contentDescription

/-- `JohnnyDecimalOrganizer.assign_id`, state-threaded.  Returns the raised
exception or `(new_id, folder_path, description)`, together with the
organizer state after the call (the `assigned_ids.add` happens before the
folder rendering, so a missing-area `KeyError` leaves the ID recorded). -/
def assignId (sanitize : String → Nat → String) (org : Organizer)
    (filePath contentDescription : String) (suggestedCategory : Option Nat) :
    Except PyErr (String × String × String) × Organizer :=
  let rc := resolveCategory org filePath contentDescription suggestedCategory
  let area := rc.1
  let category := rc.2.1
  let categoryName := rc.2.2
  match getNextAvailableId org.assigned category with
  | .error msg => (.error (.valueError msg), org)
  | .ok newId =>
    let org' := { org with assigned := newId :: org.assigned }
    let folderRes : Except PyErr String :=
      if area = 0 then
        .ok (pyJoin "00-09 System" (pad2str category ++ " " ++ categoryName))
      else
        match org'.areas.lookup area with
        | some areaNm =>
          .ok (pyJoin (natToStr area ++ "-" ++ natToStr (area + 9) ++ " " ++ areaNm)
                (natToStr category ++ " " ++ categoryName))
        | none => .error (.keyError (natToStr area))
    match folderRes with
    | .error e => (.error e, org')
    | .ok folderPath =>
      let description0 :=
        if contentDescription = "" then
          sanitize (pySplitext (pyBasename filePath)).1 4
        else sanitize contentDescription 4
      let description := if description0 = "" then "item" else description0
      (.ok (newId, folderPath, description), org')

/-- A JDex index entry (`generate_jdex_entry`'s dict). -/
structure JdexEntry where
  id : String
  title : String
  location : String
  description : String
  created : String
  notes : String
deriving DecidableEq

/-- `JohnnyDecimalOrganizer.generate_jdex_entry`. -/
def generateJdexEntry (id description filePath : String) : JdexEntry :=
  { id, title := id ++ " " ++ description,
    location := "File system: " ++ filePath, description,
    created := "Today",
    notes := "Add any additional notes about this item here." }

/-- An operation record appended by `process_files_johnny_decimal`. -/
structure Operation where
  source : String
  destination : String
  linkType : String
  folderName : String
  newFileName : String
  jdId : String
  jdexEntry : JdexEntry
deriving DecidableEq

/-- The per-file loop of `process_files_johnny_decimal`, threading the
organizer.  Returns `(operations, printed warnings, logged error lines)`:
the second component models the `print(f"WARNING: ...")` calls of the
`except ValueError` branch (emitted only when not silent), the third the
`f.write(f"ERROR: ...")` lines (emitted only when a log file is given).
Informational success output is not modelled.  An uncaught `KeyError`
aborts the whole run. -/
def processFilesGo (sanitize : String → Nat → String) (org : Organizer)
    (outputPath : String) (fileDescriptions : List (String × String))
    (silent : Bool) (logFile : Option String) :
    List String → Except PyErr (List Operation × List String × List String)
  | [] => .ok ([], [], [])
  | filePath :: rest =>
    if pyStartsWith (pyBasename filePath) "." then
      processFilesGo sanitize org outputPath fileDescriptions silent logFile rest
    else
      let contentDescription := (fileDescriptions.lookup filePath).getD ""
      match assignId sanitize org filePath contentDescription none with
      | (.ok (jdId, folderPath, description), org') =>
        let fileExt := (pySplitext filePath).2
        let newFilename := jdId ++ " " ++ description ++ fileExt
        let fullFolderPath := pyJoin outputPath folderPath
        let destinationPath := pyJoin fullFolderPath newFilename
        let jdexEntry := generateJdexEntry jdId description destinationPath
        let op : Operation :=
          { source := filePath, destination := destinationPath,
            linkType := "hardlink", folderName := folderPath,
            newFileName := newFilename, jdId, jdexEntry }
        match processFilesGo sanitize org' outputPath fileDescriptions silent logFile rest with
        | .ok (ops, warns, logs) => .ok (op :: ops, warns, logs)
        | .error e => .error e
      | (.error (.valueError m), orgAfter) =>
        let errorMsg := "Error processing " ++ filePath ++ ": " ++ m
        match processFilesGo sanitize orgAfter outputPath fileDescriptions silent logFile rest with
        | .ok (ops, warns, logs) =>
          .ok (ops,
               (if silent then warns else ("WARNING: " ++ errorMsg) :: warns),
               (match logFile with
                | some _ => ("ERROR: " ++ errorMsg ++ "\n") :: logs
                | none => logs))
        | .error e => .error e
      | (.error (.keyError m), _) => .error (.keyError m)

/-- `process_files_johnny_decimal`: build the organizer (a construction
`ValueError` propagates to the caller), then run the per-file loop. -/
def processFilesJohnnyDecimal (sanitize : String → Nat → String)
    (filePaths : List String) (outputPath : String)
    (fileDescriptions : List (String × String))
    (customAreas customCategories : Option (List (Nat × String)))
    (silent : Bool) (logFile : Option String) :
    Except PyErr (List Operation × List String × List String) :=
  match initOrganizer customAreas customCategories with
  | .error e => .error (.valueError e)
  | .ok org => processFilesGo sanitize org outputPath fileDescriptions silent logFile filePaths

/-! ## The allocation loop of one run

`assign_id` performs `get_next_available_id` followed (on success) by
`self.assigned_ids.add(new_id)`.  `runAlloc` is that allocate-and-record
step iterated over a sequence of category requests, recording for each
request the numeric sequence number returned (or `none` for the raised
`ValueError`). -/

/-- One allocator call followed by recording the returned ID (the
`get_next_available_id` / `assigned_ids.add` pair inside `assign_id`). -/
def allocStep (assigned : List String) (category : Nat) :
    Option Nat × List String :=
  match getNextAvailableId assigned category with
  | .ok idStr => (some (nextIdNum assigned category).toNat, idStr :: assigned)
  | .error _ => (none, assigned)

/-- Iterate `allocStep` over a list of category requests, pairing each request
with its outcome. -/
def runAlloc : List Nat → List String → List (Nat × Option Nat) × List String
  | [], assigned => ([], assigned)
  | c :: cs, assigned =>
    ((c, (allocStep assigned c).1) :: (runAlloc cs (allocStep assigned c).2).1,
     (runAlloc cs (allocStep assigned c).2).2)

/-- The successful sequence numbers returned for one category, in call
order. -/
def succFor (category : Nat) (outs : List (Nat × Option Nat)) : List Nat :=
  outs.filterMap fun p => if p.1 = category then p.2 else none

/-- The assigned-ID set after `k` successful allocations in a fresh regular
category `c`: the IDs `c.10, …, c.(10+k-1)`, newest first. -/
def stateK (c k : Nat) : List String :=
  ((List.range k).map fun i => idString c (10 + i)).reverse

/-- `min_id - 1`, the code's starting value for the `max_id` fold of
`get_next_available_id`. -/
def initMax (category : Nat) : Int :=
  (if category ≤ 9 then (0 : Int) else 10) - 1

/-- The spec's description of the rendered description component (§4.4): the
external sanitizer applied to the content description if present, otherwise
to the file's base name without extension, bounded to 4 words, with the
placeholder `"item"` substituted when sanitization yields the empty string. -/
def sanitizedDescription (sanitize : String → Nat → String)
    (filePath contentDescription : String) : String :=
  let raw :=
    if contentDescription = "" then (pySplitext (pyBasename filePath)).1
    else contentDescription
  let s := sanitize raw 4
  if s = "" then "item" else s

/-- The operation list of an orchestrator result (empty if the run aborted). -/
def opsOf (r : Except PyErr (List Operation × List String × List String)) :
    List Operation :=
  match r with
  | .ok v => v.1
  | .error _ => []

/-- The printed warnings of an orchestrator result. -/
def warnsOf (r : Except PyErr (List Operation × List String × List String)) :
    List String :=
  match r with
  | .ok v => v.2.1
  | .error _ => []

/-- The logged error lines of an orchestrator result. -/
def logsOf (r : Except PyErr (List Operation × List String × List String)) :
    List String :=
  match r with
  | .ok v => v.2.2
  | .error _ => []

/-- A file is skipped as hidden when its base name starts with `'.'`. -/
def isHidden (filePath : String) : Bool :=
  pyStartsWith (pyBasename filePath) "."

/-- A default-registry organizer whose category 12 has every sequence number
10–99 already assigned (a mid-run state used as concrete input). -/
def exhaustedOrganizer : Organizer :=
  { areas := defaultAreas, categories := defaultCategories,
    assigned := stateK 12 90 }

/-! ## Facts about the decimal rendering and the ID round-trip -/

theorem digitChr_mem (d : Nat) :
    digitChr d ∈ ['0', '1', '2', '3', '4', '5', '6', '7', '8', '9'] := by
  rcases d with _|_|_|_|_|_|_|_|_|d <;> simp [digitChr]

theorem natToCharsGo_digits :
    ∀ (fuel n : Nat) (acc : List Char),
      (∀ c ∈ acc, c ∈ ['0', '1', '2', '3', '4', '5', '6', '7', '8', '9']) →
      ∀ c ∈ natToCharsGo fuel n acc,
        c ∈ ['0', '1', '2', '3', '4', '5', '6', '7', '8', '9'] := by
  intro fuel
  induction fuel with
  | zero => intro n acc hacc c hc; exact hacc c hc
  | succ fuel ih =>
    intro n acc hacc c hc
    unfold natToCharsGo at hc
    split at hc
    · rcases List.mem_cons.mp hc with h | h
      · exact h ▸ digitChr_mem n
      · exact hacc c h
    · refine ih (n / 10) _ ?_ c hc
      intro x hx
      rcases List.mem_cons.mp hx with h | h
      · exact h ▸ digitChr_mem (n % 10)
      · exact hacc x h

theorem natToChars_digits (n : Nat) :
    ∀ c ∈ natToChars n, c ∈ ['0', '1', '2', '3', '4', '5', '6', '7', '8', '9'] :=
  natToCharsGo_digits (n + 1) n [] (by simp)

theorem natToChars_noDot (n : Nat) : ∀ c ∈ natToChars n, c ≠ '.' := by
  intro c hc
  have := natToChars_digits n c hc
  fin_cases this <;> decide

theorem natToChars_noSlash (n : Nat) : ∀ c ∈ natToChars n, c ≠ '/' := by
  intro c hc
  have := natToChars_digits n c hc
  fin_cases this <;> decide

theorem pad2chars_digits (n : Nat) :
    ∀ c ∈ pad2chars n, c ∈ ['0', '1', '2', '3', '4', '5', '6', '7', '8', '9'] := by
  intro c hc
  unfold pad2chars at hc
  split at hc
  · rcases List.mem_cons.mp hc with h | h
    · simp [h]
    · exact natToChars_digits n c h
  · exact natToChars_digits n c hc

theorem pad2chars_noDot (n : Nat) : ∀ c ∈ pad2chars n, c ≠ '.' := by
  intro c hc
  have := pad2chars_digits n c hc
  fin_cases this <;> decide

theorem natToCharsGo_ne_nil :
    ∀ (fuel n : Nat) (acc : List Char), acc ≠ [] → natToCharsGo fuel n acc ≠ [] := by
  intro fuel
  induction fuel with
  | zero => intro n acc h; exact h
  | succ fuel ih =>
    intro n acc h
    unfold natToCharsGo
    split
    · simp
    · exact ih (n / 10) _ (by simp)

theorem natToChars_ne_nil (n : Nat) : natToChars n ≠ [] := by
  unfold natToChars natToCharsGo
  split
  · simp
  · exact natToCharsGo_ne_nil n (n / 10) _ (by simp)

/-- The first character of a decimal rendering is a digit, hence not `'/'`. -/
theorem natToChars_head_ne_slash (n : Nat) :
    ∀ c, (natToChars n).head? = some c → c ≠ '/' := by
  intro c hc
  cases h : natToChars n with
  | nil => exact absurd h (natToChars_ne_nil n)
  | cons a l =>
    rw [h] at hc
    simp at hc
    exact hc ▸ natToChars_noSlash n a (by simp [h])

theorem startsWithL_append (a : List Char) (c : Char) (b : List Char) :
    startsWithL (a ++ [c]) (a ++ c :: b) = true := by
  induction a with
  | nil => simp [startsWithL]
  | cons x xs ih => simpa [startsWithL] using ih

theorem splitDotL_noDot (b : List Char) (hb : ∀ c ∈ b, c ≠ '.') :
    splitDotL b = [b] := by
  induction b with
  | nil => rfl
  | cons x xs ih =>
    have hx : (x == '.') = false := by
      simpa using hb x (by simp)
    have ihh := ih fun c hc => hb c (by simp [hc])
    simp [splitDotL, hx, ihh]

theorem splitDotL_append (a b : List Char) (ha : ∀ c ∈ a, c ≠ '.') :
    splitDotL (a ++ '.' :: b) = a :: splitDotL b := by
  induction a with
  | nil => simp [splitDotL]
  | cons x xs ih =>
    have hx : (x == '.') = false := by
      simpa using ha x (by simp)
    have ihh := ih fun c hc => ha c (by simp [hc])
    simp [splitDotL, hx, ihh]

theorem pad2_digitsVal : ∀ n < 100, digitsVal (pad2chars n) = some n := by decide

/-- Round-trip: the allocator's parse of an ID string it renders itself
recovers the sequence number (for the two-digit range it ever renders). -/
theorem parseIdNum_idString (c n : Nat) (hn : n < 100) :
    parseIdNum c (idString c n) = some n := by
  have hdata : (idString c n).data = natToChars c ++ '.' :: pad2chars n := rfl
  have hpre : (natToStr c ++ ".").data = natToChars c ++ ['.'] := rfl
  have hstart : pyStartsWith (idString c n) (natToStr c ++ ".") = true := by
    unfold pyStartsWith
    rw [hdata, hpre]
    exact startsWithL_append (natToChars c) '.' (pad2chars n)
  have hsplit : pySplitDot (idString c n) = [⟨natToChars c⟩, ⟨pad2chars n⟩] := by
    unfold pySplitDot
    rw [hdata, splitDotL_append _ _ (natToChars_noDot c),
        splitDotL_noDot _ (pad2chars_noDot n)]
    rfl
  unfold parseIdNum
  rw [hstart, if_pos rfl, hsplit]
  exact pad2_digitsVal n hn

/-! ## Facts about the allocator -/

theorem maxAssigned_nil (c : Nat) (i : Int) : maxAssigned c [] i = i := rfl

theorem maxAssigned_cons (c : Nat) (x : String) (s : List String) (i : Int) :
    maxAssigned c (x :: s) i =
      match parseIdNum c x with
      | some v => max (maxAssigned c s i) (v : Int)
      | none => maxAssigned c s i := rfl

theorem le_maxAssigned_cons (c : Nat) (x : String) (s : List String) (i : Int) :
    maxAssigned c s i ≤ maxAssigned c (x :: s) i := by
  rw [maxAssigned_cons]
  cases parseIdNum c x with
  | some v => exact le_max_left _ _
  | none => exact le_refl _

theorem init_le_maxAssigned (c : Nat) (s : List String) (i : Int) :
    i ≤ maxAssigned c s i := by
  induction s with
  | nil => exact le_refl _
  | cons x xs ih => exact le_trans ih (le_maxAssigned_cons c x xs i)

theorem parse_le_maxAssigned_cons (c : Nat) (x : String) (s : List String) (i : Int)
    (v : Nat) (hv : parseIdNum c x = some v) :
    (v : Int) ≤ maxAssigned c (x :: s) i := by
  rw [maxAssigned_cons, hv]
  exact le_max_right _ _

theorem nextIdNum_eq (s : List String) (c : Nat) :
    nextIdNum s c =
      if c ≤ 9 then maxAssigned c s (initMax c) + 1
      else if maxAssigned c s (initMax c) + 1 < 10 then 10
      else maxAssigned c s (initMax c) + 1 := by
  unfold nextIdNum initMax
  split <;> simp_all

theorem neg_one_le_initMax (c : Nat) : (-1 : Int) ≤ initMax c := by
  unfold initMax; split <;> omega

theorem maxAssigned_lt_nextIdNum (s : List String) (c : Nat) :
    maxAssigned c s (initMax c) < nextIdNum s c := by
  rw [nextIdNum_eq]
  split
  · omega
  · split <;> omega

theorem nextIdNum_nonneg (s : List String) (c : Nat) : 0 ≤ nextIdNum s c := by
  have h := (neg_one_le_initMax c).trans (init_le_maxAssigned c s (initMax c))
  rw [nextIdNum_eq]
  split
  · omega
  · split <;> omega

/-- Success characterization of `get_next_available_id`. -/
theorem getNextAvailableId_ok (s : List String) (c : Nat)
    (h : nextIdNum s c ≤ 99) :
    getNextAvailableId s c = .ok (idString c (nextIdNum s c).toNat) := by
  unfold getNextAvailableId
  simp only []
  rw [if_neg (by omega)]

/-- Failure characterization of `get_next_available_id` for a regular
category. -/
theorem getNextAvailableId_err (s : List String) (c : Nat)
    (hc : 10 ≤ c) (h : 99 < nextIdNum s c) :
    getNextAvailableId s c =
      .error ("Category " ++ natToStr c ++ " has reached maximum of 90 items (.10-.99)") := by
  unfold getNextAvailableId
  simp only []
  rw [if_pos (by omega), if_neg (by omega)]

/-- A successful allocation returns a value strictly above the current
category maximum, and records an ID that parses back to that value. -/
theorem allocStep_ok (s : List String) (c : Nat) (h : nextIdNum s c ≤ 99) :
    allocStep s c = (some (nextIdNum s c).toNat, idString c (nextIdNum s c).toNat :: s) := by
  unfold allocStep
  rw [getNextAvailableId_ok s c h]

theorem allocStep_err (s : List String) (c : Nat) (h : 99 < nextIdNum s c) :
    allocStep s c = (none, s) := by
  have : ∃ m, getNextAvailableId s c = .error m := by
    unfold getNextAvailableId
    simp only []
    rw [if_pos (by omega)]
    split <;> exact ⟨_, rfl⟩
  obtain ⟨m, hm⟩ := this
  unfold allocStep
  rw [hm]

/-- After recording a successful allocation, the category maximum is at least
the returned value. -/
theorem maxAssigned_after_alloc (s : List String) (c : Nat) (h : nextIdNum s c ≤ 99) :
    (nextIdNum s c) ≤ maxAssigned c (idString c (nextIdNum s c).toNat :: s) (initMax c) := by
  have h0 := nextIdNum_nonneg s c
  have hlt : (nextIdNum s c).toNat < 100 := by omega
  have hp := parseIdNum_idString c (nextIdNum s c).toNat hlt
  have := parse_le_maxAssigned_cons c (idString c (nextIdNum s c).toNat) s (initMax c) _ hp
  omega

theorem succFor_nil (c : Nat) : succFor c [] = [] := rfl

theorem succFor_cons_some (c : Nat) (v : Nat) (outs : List (Nat × Option Nat)) :
    succFor c ((c, some v) :: outs) = v :: succFor c outs := by
  simp [succFor]

theorem succFor_cons_none (c c' : Nat) (outs : List (Nat × Option Nat)) :
    succFor c ((c', none) :: outs) = succFor c outs := by
  by_cases h : c' = c <;> simp [succFor, h]

theorem succFor_cons_ne (c c' : Nat) (r : Option Nat) (outs : List (Nat × Option Nat))
    (h : c' ≠ c) : succFor c ((c', r) :: outs) = succFor c outs := by
  simp [succFor, h]

theorem runAlloc_cons (c : Nat) (cs : List Nat) (s : List String) :
    runAlloc (c :: cs) s =
      ((c, (allocStep s c).1) :: (runAlloc cs (allocStep s c).2).1,
       (runAlloc cs (allocStep s c).2).2) := rfl

theorem maxAssigned_cons_some (c : Nat) (x : String) (s : List String) (i : Int)
    (v : Nat) (h : parseIdNum c x = some v) :
    maxAssigned c (x :: s) i = max (maxAssigned c s i) (v : Int) := by
  rw [maxAssigned_cons, h]

theorem stateK_zero (c : Nat) : stateK c 0 = [] := rfl

theorem stateK_succ (c k : Nat) :
    stateK c (k + 1) = idString c (10 + k) :: stateK c k := by
  simp [stateK, List.range_succ]

theorem maxAssigned_stateK (c : Nat) :
    ∀ k, k ≤ 90 → maxAssigned c (stateK c k) 9 = 9 + (k : Int) := by
  intro k
  induction k with
  | zero => intro _; simp [stateK, maxAssigned]
  | succ k ih =>
    intro hk
    rw [stateK_succ,
        maxAssigned_cons_some c _ _ _ (10 + k) (parseIdNum_idString c (10 + k) (by omega)),
        ih (by omega)]
    push_cast
    omega

theorem initMax_regular (c : Nat) (hc : 10 ≤ c) : initMax c = 9 := by
  unfold initMax
  rw [if_neg (by omega)]
  rfl

theorem nextIdNum_stateK (c : Nat) (hc : 10 ≤ c) (k : Nat) (hk : k ≤ 90) :
    nextIdNum (stateK c k) c = 10 + (k : Int) := by
  rw [nextIdNum_eq, if_neg (by omega), initMax_regular c hc, maxAssigned_stateK c k hk,
      if_neg (by omega)]
  omega

/-- The outputs of `m` consecutive allocation requests for a fresh regular
category, continued from the state after `k` earlier successes, until the
91st request overall fails. -/
theorem runAlloc_replicate (c : Nat) (hc : 10 ≤ c) :
    ∀ (m k : Nat), k + m = 91 → k ≤ 90 →
      (runAlloc (List.replicate m c) (stateK c k)).1 =
        ((List.range (90 - k)).map fun i => (c, some (10 + k + i))) ++ [(c, none)] := by
  intro m
  induction m with
  | zero => intro k h1 h2; omega
  | succ m ih =>
    intro k h1 h2
    by_cases hk : k = 90
    · subst hk
      have hm : m = 0 := by omega
      subst hm
      rw [List.replicate_one, runAlloc_cons,
          allocStep_err _ _ (by rw [nextIdNum_stateK c hc 90 (by omega)]; omega)]
      simp [runAlloc]
    · have hok : nextIdNum (stateK c k) c ≤ 99 := by
        rw [nextIdNum_stateK c hc k (by omega)]; omega
      rw [List.replicate_succ, runAlloc_cons, allocStep_ok _ _ hok]
      simp only []
      have hval : (nextIdNum (stateK c k) c).toNat = 10 + k := by
        rw [nextIdNum_stateK c hc k (by omega)]; omega
      rw [hval, ← stateK_succ, ih (k + 1) (by omega) (by omega)]
      have hsplit : 90 - k = (90 - (k + 1)) + 1 := by omega
      rw [hsplit, List.range_succ_eq_map]
      have harith : ∀ i : Nat, 10 + (k + 1) + i = 10 + k + (i + 1) := fun i => by omega
      simp [List.map_map, Function.comp, harith]

/-- The state after `m` consecutive successful allocations continued from
`stateK c k`. -/
theorem runAlloc_replicate_state (c : Nat) (hc : 10 ≤ c) :
    ∀ (m k : Nat), k + m ≤ 90 →
      (runAlloc (List.replicate m c) (stateK c k)).2 = stateK c (k + m) := by
  intro m
  induction m with
  | zero => intro k _; rfl
  | succ m ih =>
    intro k h
    have hok : nextIdNum (stateK c k) c ≤ 99 := by
      rw [nextIdNum_stateK c hc k (by omega)]; omega
    rw [List.replicate_succ, runAlloc_cons]
    simp only []
    rw [allocStep_ok _ _ hok]
    simp only []
    have hval : (nextIdNum (stateK c k) c).toNat = 10 + k := by
      rw [nextIdNum_stateK c hc k (by omega)]; omega
    rw [hval, ← stateK_succ, ih (k + 1) (by omega)]
    congr 1
    omega

/-- The run invariant behind claim C1: starting from any state whose category
maximum dominates `b`, every later successful sequence number for that
category exceeds `b`, and the successful sequence numbers are pairwise
strictly increasing in call order. -/
theorem runAlloc_invariant (c : Nat) :
    ∀ (cats : List Nat) (s : List String) (b : Int),
      b ≤ maxAssigned c s (initMax c) →
      (∀ x ∈ succFor c (runAlloc cats s).1, b < (x : Int)) ∧
      List.Pairwise (· < ·) (succFor c (runAlloc cats s).1) := by
  intro cats
  induction cats with
  | nil =>
    intro s b _
    constructor
    · intro x hx; simp [runAlloc, succFor] at hx
    · simp [runAlloc, succFor]
  | cons c' cs ih =>
    intro s b hb
    rw [runAlloc_cons]
    by_cases hok : nextIdNum s c' ≤ 99
    · rw [allocStep_ok s c' hok]
      simp only []
      by_cases hcc : c' = c
      · subst hcc
        have hnn := nextIdNum_nonneg s c'
        have hafter := maxAssigned_after_alloc s c' hok
        have ihh := ih (idString c' (nextIdNum s c').toNat :: s) ((nextIdNum s c').toNat : Int)
          (by omega)
        have hbn : b < ((nextIdNum s c').toNat : Int) := by
          have := maxAssigned_lt_nextIdNum s c'
          omega
        rw [succFor_cons_some]
        constructor
        · intro x hx
          rcases List.mem_cons.mp hx with h | h
          · omega
          · have := ihh.1 x h; omega
        · refine List.pairwise_cons.mpr ⟨?_, ihh.2⟩
          intro x hx
          have := ihh.1 x hx
          omega
      · have hmono : b ≤ maxAssigned c (idString c' (nextIdNum s c').toNat :: s) (initMax c) :=
          le_trans hb (le_maxAssigned_cons c _ s (initMax c))
        have ihh := ih (idString c' (nextIdNum s c').toNat :: s) b hmono
        rw [succFor_cons_ne c c' _ _ hcc]
        exact ihh
    · rw [allocStep_err s c' (by omega)]
      simp only []
      rw [succFor_cons_none]
      exact ih s b hb

/-! ## Facts about the categorizer -/

/-- A conjunct that holds on every list element can be dropped from a
`find?`. -/
theorem find?_and_of_all (l : List (String × Nat)) (p q : String × Nat → Bool)
    (hq : ∀ kv ∈ l, q kv = true) :
    l.find? (fun kv => p kv && q kv) = l.find? p := by
  induction l with
  | nil => rfl
  | cons x xs ih =>
    have hx := hq x (by simp)
    cases hp : p x with
    | true =>
      rw [List.find?_cons_of_pos _ (by simp [hp, hx]), List.find?_cons_of_pos _ hp]
    | false =>
      rw [List.find?_cons_of_neg _ (by simp [hp]), List.find?_cons_of_neg _ (by simp [hp])]
      exact ih fun kv hkv => hq kv (by simp [hkv])

/-- Every category targeted by the keyword table is defined in the default
registry. -/
theorem suggestions_targets_default :
    ∀ kv ∈ suggestions, (defaultCategories.lookup kv.2).isSome = true := by decide

theorem foldl_min_facts (l : List (Nat × String)) :
    ∀ a : Nat,
      (l.foldl (fun m p => min m p.1) a = a ∨
        l.foldl (fun m p => min m p.1) a ∈ l.map Prod.fst) ∧
      l.foldl (fun m p => min m p.1) a ≤ a ∧
      ∀ kv ∈ l, l.foldl (fun m p => min m p.1) a ≤ kv.1 := by
  induction l with
  | nil => intro a; exact ⟨Or.inl rfl, le_refl _, by simp⟩
  | cons x xs ih =>
    intro a
    simp only [List.foldl_cons]
    obtain ⟨h1, h2, h3⟩ := ih (min a x.1)
    refine ⟨?_, h2.trans (min_le_left _ _), ?_⟩
    · rcases h1 with h | h
      · rcases Nat.le_total a x.1 with hax | hax
        · left; rw [h, min_eq_left hax]
        · right; rw [h, min_eq_right hax]; simp
      · right; simp [h]
    · intro kv hkv
      rcases List.mem_cons.mp hkv with h | h
      · rw [h]; exact h2.trans (min_le_right _ _)
      · exact h3 kv h

theorem minKeys_le (l : List (Nat × String)) : ∀ kv ∈ l, minKeys l ≤ kv.1 := by
  cases l with
  | nil => simp
  | cons x xs =>
    intro kv hkv
    obtain ⟨_, h2, h3⟩ := foldl_min_facts xs x.1
    rcases List.mem_cons.mp hkv with h | h
    · rw [h]; exact h2
    · exact h3 kv h

theorem minKeys_mem (l : List (Nat × String)) (h : l ≠ []) :
    minKeys l ∈ l.map Prod.fst := by
  cases l with
  | nil => exact absurd rfl h
  | cons x xs =>
    obtain ⟨h1, _, _⟩ := foldl_min_facts xs x.1
    show List.foldl (fun m p => min m p.1) x.1 xs ∈ List.map Prod.fst (x :: xs)
    rcases h1 with h | h
    · rw [h]; simp
    · simp [h]

/-! ## Facts about `assign_id` and the orchestrator -/

theorem string_data_append (a b : String) : (a ++ b).data = a.data ++ b.data := rfl

theorem getLast?_append_space (x : String) : (x ++ " ").data.getLast? = some ' ' := by
  rw [string_data_append, List.getLast?_append_of_ne_nil _ (by decide)]
  rfl

/-- A folder-component prefix ending in a space, followed by a slash-free
name, never ends in a slash. -/
theorem folder_last_ne_slash (pre nm : String)
    (hpre : pre.data.getLast? = some ' ') (hnm : '/' ∉ nm.data) :
    (pre ++ nm).data.getLast? ≠ some '/' := by
  rw [string_data_append]
  cases hn : nm.data with
  | nil =>
    rw [List.append_nil, hpre]
    simp
  | cons y ys =>
    rw [List.getLast?_append_of_ne_nil _ (by simp)]
    intro hcontra
    rw [← hn] at hcontra
    exact hnm (List.mem_of_mem_getLast? hcontra)

theorem data_ne_nil_left (x y : String) (hx : x.data ≠ []) : (x ++ y).data ≠ [] := by
  rw [string_data_append]
  exact fun h => hx (List.append_eq_nil.mp h).1

/-- A list starting with a decimal digit does not start with a slash. -/
theorem head_ne_slash_of_digits (l tail : List Char)
    (hd : ∀ c ∈ l, c ∈ ['0', '1', '2', '3', '4', '5', '6', '7', '8', '9'])
    (hne : l ≠ []) :
    ∀ c, (l ++ tail).head? = some c → c ≠ '/' := by
  intro c hc
  cases l with
  | nil => exact absurd rfl hne
  | cons x xs =>
    simp only [List.cons_append, List.head?_cons, Option.some.injEq] at hc
    have := hd x (by simp)
    subst hc
    fin_cases this <;> decide

/-- The `os.path.join` of two sane folder components is plain
slash-concatenation. -/
theorem pyJoin_eq_slash (a b : String) (ha : a.data ≠ [])
    (hlast : a.data.getLast? ≠ some '/')
    (hhead : ∀ c, b.data.head? = some c → c ≠ '/') :
    pyJoin a b = a ++ "/" ++ b := by
  have h1 : pyStartsWith b "/" = false := by
    unfold pyStartsWith
    cases hb : b.data with
    | nil => rfl
    | cons x xs =>
      have hx := hhead x (by rw [hb]; rfl)
      show startsWithL ['/'] (x :: xs) = false
      have hxx : ('/' == x) = false := beq_eq_false_iff_ne.mpr fun h => hx h.symm
      simp [startsWithL, hxx]
  have h2 : ¬ (a = "") := fun h => ha (by rw [h])
  unfold pyJoin
  rw [h1]
  simp only [Bool.false_eq_true, if_false]
  rw [if_neg h2, if_neg hlast]

theorem natToStr_data (n : Nat) : (natToStr n).data = natToChars n := rfl

theorem pad2str_data (n : Nat) : (pad2str n).data = pad2chars n := rfl

theorem string_ext (a b : String) (h : a.data = b.data) : a = b := by
  cases a
  cases b
  exact congrArg String.mk h

theorem string_append_assoc (a b c : String) : a ++ b ++ c = a ++ (b ++ c) := by
  apply string_ext
  rw [string_data_append, string_data_append, string_data_append, string_data_append,
      List.append_assoc]

/-- A category folder `f"{category} {name}"` starts with a digit, never a
slash. -/
theorem catFolder_head_ne_slash (cat : Nat) (catName : String) :
    ∀ c, (natToStr cat ++ " " ++ catName).data.head? = some c → c ≠ '/' := by
  intro c hc
  rw [string_data_append, string_data_append, natToStr_data, List.append_assoc] at hc
  exact head_ne_slash_of_digits (natToChars cat) _ (natToChars_digits cat)
    (natToChars_ne_nil cat) c hc

theorem pad2chars_ne_nil (n : Nat) : pad2chars n ≠ [] := by
  unfold pad2chars
  split
  · simp
  · exact natToChars_ne_nil n

/-- A system category folder `f"{category:02d} {name}"` starts with a digit,
never a slash. -/
theorem sysFolder_head_ne_slash (cat : Nat) (nm : String) :
    ∀ c, (pad2str cat ++ " " ++ nm).data.head? = some c → c ≠ '/' := by
  intro c hc
  rw [string_data_append, string_data_append, pad2str_data, List.append_assoc] at hc
  exact head_ne_slash_of_digits (pad2chars cat) _ (pad2chars_digits cat)
    (pad2chars_ne_nil cat) c hc

/-- The description computed inline by `assign_id` equals the spec's
`sanitizedDescription`. -/
theorem assignId_description_eq (sanitize : String → Nat → String)
    (filePath contentDescription : String) :
    (if (if contentDescription = "" then sanitize (pySplitext (pyBasename filePath)).1 4
         else sanitize contentDescription 4) = "" then "item"
     else if contentDescription = "" then sanitize (pySplitext (pyBasename filePath)).1 4
          else sanitize contentDescription 4) =
    sanitizedDescription sanitize filePath contentDescription := by
  unfold sanitizedDescription
  by_cases h : contentDescription = "" <;> simp [h]

/-- `assign_id` success, regular area: the rendered folder path is the
joined area folder and category folder. -/
theorem assignId_ok_regular (sanitize : String → Nat → String) (org : Organizer)
    (filePath contentDescription : String) (area cat : Nat) (catName areaNm idStr : String)
    (hs : resolveCategory org filePath contentDescription none = (area, cat, catName))
    (ha : ¬ area = 0)
    (hlook : org.areas.lookup area = some areaNm)
    (halloc : getNextAvailableId org.assigned cat = .ok idStr) :
    assignId sanitize org filePath contentDescription none =
      (.ok (idStr,
            pyJoin (natToStr area ++ "-" ++ natToStr (area + 9) ++ " " ++ areaNm)
              (natToStr cat ++ " " ++ catName),
            sanitizedDescription sanitize filePath contentDescription),
       { org with assigned := idStr :: org.assigned }) := by
  unfold assignId
  rw [hs]
  try dsimp only
  rw [halloc]
  try dsimp only
  rw [if_neg ha]
  try dsimp only
  rw [hlook]
  try dsimp only
  rw [assignId_description_eq]

/-- `assign_id` success, system area (reached via an explicit hint ≤ 9): the
folder is the fixed `00-09 System` label plus the two-digit category
folder. -/
theorem assignId_ok_system (sanitize : String → Nat → String) (org : Organizer)
    (filePath contentDescription : String) (cat : Nat) (nm idStr : String)
    (hcat : cat ≤ 9)
    (hlook : org.categories.lookup cat = some nm)
    (halloc : getNextAvailableId org.assigned cat = .ok idStr) :
    assignId sanitize org filePath contentDescription (some cat) =
      (.ok (idStr, pyJoin "00-09 System" (pad2str cat ++ " " ++ nm),
            sanitizedDescription sanitize filePath contentDescription),
       { org with assigned := idStr :: org.assigned }) := by
  have hrc : resolveCategory org filePath contentDescription (some cat) = (0, cat, nm) := by
    unfold resolveCategory
    dsimp only
    rw [hlook]
    dsimp only
    rw [if_neg (show ¬ 10 ≤ cat by omega)]
  unfold assignId
  rw [hrc]
  try dsimp only
  rw [halloc]
  try dsimp only
  rw [if_pos rfl]
  try dsimp only
  rw [assignId_description_eq]

/-- An allocation-exhaustion `ValueError` in `assign_id` leaves the organizer
exactly as it was. -/
theorem assignId_valueError_state (sanitize : String → Nat → String) (org : Organizer)
    (filePath contentDescription : String) (hint : Option Nat) (m : String)
    (org' : Organizer)
    (h : assignId sanitize org filePath contentDescription hint =
      (.error (.valueError m), org')) :
    org' = org := by
  unfold assignId at h
  rcases hrc : resolveCategory org filePath contentDescription hint with ⟨area, cat, nm⟩
  rw [hrc] at h
  dsimp only at h
  cases halloc : getNextAvailableId org.assigned cat with
  | error msg =>
    rw [halloc] at h
    dsimp only at h
    injection h with h1 h2
    exact h2.symm
  | ok newId =>
    rw [halloc] at h
    dsimp only at h
    by_cases ha : area = 0
    · rw [if_pos ha] at h
      dsimp only at h
      injection h with h1 h2
      cases h1
    · rw [if_neg ha] at h
      cases hlook : org.areas.lookup area with
      | some anm =>
        rw [hlook] at h
        dsimp only at h
        injection h with h1 h2
        cases h1
      | none =>
        rw [hlook] at h
        dsimp only at h
        injection h with h1 h2
        cases h1

/-- Orchestrator step: hidden files are skipped outright. -/
theorem processFilesGo_cons_hidden (sanitize : String → Nat → String) (org : Organizer)
    (outputPath : String) (fileDescriptions : List (String × String))
    (silent : Bool) (logFile : Option String) (f : String) (rest : List String)
    (hh : pyStartsWith (pyBasename f) "." = true) :
    processFilesGo sanitize org outputPath fileDescriptions silent logFile (f :: rest) =
      processFilesGo sanitize org outputPath fileDescriptions silent logFile rest := by
  conv_lhs => rw [processFilesGo]
  rw [if_pos hh]

/-- Orchestrator step: a successfully assigned file contributes exactly its
operation record, built from the returned ID, folder and description, with
the original extension appended verbatim. -/
theorem processFilesGo_cons_ok (sanitize : String → Nat → String) (org : Organizer)
    (outputPath : String) (fileDescriptions : List (String × String))
    (silent : Bool) (logFile : Option String) (f : String) (rest : List String)
    (jdId folderPath description : String) (org' : Organizer)
    (hh : pyStartsWith (pyBasename f) "." = false)
    (hok : assignId sanitize org f ((fileDescriptions.lookup f).getD "") none =
      (.ok (jdId, folderPath, description), org')) :
    processFilesGo sanitize org outputPath fileDescriptions silent logFile (f :: rest) =
      match processFilesGo sanitize org' outputPath fileDescriptions silent logFile rest with
      | .ok (ops, warns, logs) =>
        .ok ({ source := f,
               destination := pyJoin (pyJoin outputPath folderPath)
                 (jdId ++ " " ++ description ++ (pySplitext f).2),
               linkType := "hardlink", folderName := folderPath,
               newFileName := jdId ++ " " ++ description ++ (pySplitext f).2,
               jdId := jdId,
               jdexEntry := generateJdexEntry jdId description
                 (pyJoin (pyJoin outputPath folderPath)
                   (jdId ++ " " ++ description ++ (pySplitext f).2)) } :: ops,
             warns, logs)
      | .error e => .error e := by
  conv_lhs => rw [processFilesGo]
  rw [if_neg (by simp [hh])]
  dsimp only
  rw [hok]

/-- Orchestrator step: a file whose assignment raises the per-file
`ValueError` contributes no operation record; its diagnostics appear on the
print channel when not silent and on the log channel when a log file is
given. -/
theorem processFilesGo_cons_valueError (sanitize : String → Nat → String) (org : Organizer)
    (outputPath : String) (fileDescriptions : List (String × String))
    (silent : Bool) (logFile : Option String) (f : String) (rest : List String)
    (m : String) (org' : Organizer)
    (hh : pyStartsWith (pyBasename f) "." = false)
    (herr : assignId sanitize org f ((fileDescriptions.lookup f).getD "") none =
      (.error (.valueError m), org')) :
    processFilesGo sanitize org outputPath fileDescriptions silent logFile (f :: rest) =
      match processFilesGo sanitize org' outputPath fileDescriptions silent logFile rest with
      | .ok (ops, warns, logs) =>
        .ok (ops,
             (if silent then warns
              else ("WARNING: " ++ ("Error processing " ++ f ++ ": " ++ m)) :: warns),
             (match logFile with
              | some _ => ("ERROR: " ++ ("Error processing " ++ f ++ ": " ++ m) ++ "\n") :: logs
              | none => logs))
      | .error e => .error e := by
  conv_lhs => rw [processFilesGo]
  rw [if_neg (by simp [hh])]
  dsimp only
  rw [herr]

/-- With the default registry, the fallback branch of the categorizer
resolves to `(10, 10, "Me")`. -/
theorem suggestCategorization_none_default (org : Organizer)
    (h0 : org.categories = defaultCategories) (filePath contentDescription : String)
    (h : findSuggestion defaultCategories (textToCheck filePath contentDescription) = none) :
    suggestCategorization org filePath contentDescription = (10, 10, "Me") := by
  unfold suggestCategorization
  dsimp only
  rw [h0, h]
  rfl

/-- With the default registry, the categorizer always selects an area defined
in the default areas dict. -/
theorem suggest_default_area_ok (org : Organizer)
    (h0 : org.categories = defaultCategories) (filePath contentDescription : String) :
    (defaultAreas.lookup (suggestCategorization org filePath contentDescription).1).isSome = true := by
  cases hf : findSuggestion defaultCategories (textToCheck filePath contentDescription) with
  | some kv =>
    have hmem : kv ∈ suggestions :=
      List.mem_of_find?_eq_some (by exact hf)
    have hresult : suggestCategorization org filePath contentDescription =
        ((if 10 ≤ kv.2 then kv.2 / 10 * 10 else 0), kv.2,
         (defaultCategories.lookup kv.2).getD "") := by
      unfold suggestCategorization
      dsimp only
      rw [h0, hf]
    rw [hresult]
    have hall : ∀ kv ∈ suggestions,
        (defaultAreas.lookup (if 10 ≤ kv.2 then kv.2 / 10 * 10 else 0)).isSome = true := by
      decide
    exact hall kv hmem
  | none =>
    rw [suggestCategorization_none_default org h0 filePath contentDescription hf]
    decide

/-- With the default registry, `assign_id` (no hint) either succeeds — adding
exactly the new ID to the assigned set — or raises the per-file
exhaustion `ValueError` leaving the state unchanged; it never raises
`KeyError`. -/
theorem assignId_default_shape (sanitize : String → Nat → String) (org : Organizer)
    (h0 : org.categories = defaultCategories) (h1 : org.areas = defaultAreas)
    (filePath contentDescription : String) :
    (∃ jdId folderPath description,
      assignId sanitize org filePath contentDescription none =
        (.ok (jdId, folderPath, description),
         { org with assigned := jdId :: org.assigned })) ∨
    (∃ m, assignId sanitize org filePath contentDescription none =
      (.error (.valueError m), org)) := by
  rcases hs : suggestCategorization org filePath contentDescription with ⟨area, cat, nm⟩
  have hrc : resolveCategory org filePath contentDescription none = (area, cat, nm) := hs
  cases halloc : getNextAvailableId org.assigned cat with
  | error m =>
    right
    refine ⟨m, ?_⟩
    unfold assignId
    rw [hrc]
    try dsimp only
    rw [halloc]
  | ok idStr =>
    left
    have harea := suggest_default_area_ok org h0 filePath contentDescription
    rw [hs] at harea
    by_cases ha : area = 0
    · have heq : assignId sanitize org filePath contentDescription none =
          (.ok (idStr, pyJoin "00-09 System" (pad2str cat ++ " " ++ nm),
                sanitizedDescription sanitize filePath contentDescription),
           { org with assigned := idStr :: org.assigned }) := by
        unfold assignId
        rw [hrc]
        try dsimp only
        rw [halloc]
        try dsimp only
        rw [if_pos ha]
        try dsimp only
        rw [assignId_description_eq]
      exact ⟨idStr, _, _, heq⟩
    · obtain ⟨anm, hanm⟩ := Option.isSome_iff_exists.mp harea
      rw [← h1] at hanm
      exact ⟨idStr, _, _, assignId_ok_regular sanitize org filePath contentDescription
        area cat nm anm idStr hrc ha hanm halloc⟩

/-- The orchestrator over any state carrying the default registry: it never
aborts, its operation list records exactly the successfully processed
non-hidden files in input order, and each channel that is enabled receives
one diagnostic per skipped (allocation-failed) file, so the per-channel
counts always add up to the number of non-hidden input files. -/
theorem processFilesGo_default_props (sanitize : String → Nat → String)
    (outputPath : String) (fileDescriptions : List (String × String))
    (silent : Bool) (logFile : Option String) :
    ∀ (files : List String) (org : Organizer),
      org.categories = defaultCategories → org.areas = defaultAreas →
      ∃ ops warns logs,
        processFilesGo sanitize org outputPath fileDescriptions silent logFile files =
          .ok (ops, warns, logs) ∧
        (ops.map Operation.source).Sublist files ∧
        (∀ op ∈ ops, isHidden op.source = false) ∧
        (silent = false →
          ops.length + warns.length = (files.filter fun f => !isHidden f).length) ∧
        (logFile.isSome = true →
          ops.length + logs.length = (files.filter fun f => !isHidden f).length) := by
  intro files
  induction files with
  | nil =>
    intro org h0 h1
    exact ⟨[], [], [], rfl, by simp, by simp, by simp, by simp⟩
  | cons f rest ih =>
    intro org h0 h1
    by_cases hh : isHidden f
    · obtain ⟨ops, warns, logs, heq, hsub, hhid, hcnt1, hcnt2⟩ := ih org h0 h1
      have hstep := processFilesGo_cons_hidden sanitize org outputPath fileDescriptions
        silent logFile f rest hh
      refine ⟨ops, warns, logs, hstep.trans heq, hsub.cons f, hhid, ?_, ?_⟩
      · intro hsil
        rw [List.filter_cons_of_neg (by simp [hh])]
        exact hcnt1 hsil
      · intro hlog
        rw [List.filter_cons_of_neg (by simp [hh])]
        exact hcnt2 hlog
    · have hhf : pyStartsWith (pyBasename f) "." = false := by
        simpa [isHidden] using hh
      rcases assignId_default_shape sanitize org h0 h1 f
          ((fileDescriptions.lookup f).getD "") with
        ⟨jdId, folderPath, description, hok⟩ | ⟨m, herr⟩
      · obtain ⟨ops, warns, logs, heq, hsub, hhid, hcnt1, hcnt2⟩ :=
          ih { org with assigned := jdId :: org.assigned } h0 h1
        have hstep := processFilesGo_cons_ok sanitize org outputPath fileDescriptions
          silent logFile f rest jdId folderPath description _ hhf hok
        rw [heq] at hstep
        refine ⟨_, warns, logs, hstep, ?_, ?_, ?_, ?_⟩
        · simpa using hsub.cons₂ f
        · intro op hop
          rcases List.mem_cons.mp hop with h | h
          · rw [h]; simpa using hh
          · exact hhid op h
        · intro hsil
          rw [List.filter_cons_of_pos (by simp [hh])]
          simp only [List.length_cons]
          have := hcnt1 hsil
          omega
        · intro hlog
          rw [List.filter_cons_of_pos (by simp [hh])]
          simp only [List.length_cons]
          have := hcnt2 hlog
          omega
      · obtain ⟨ops, warns, logs, heq, hsub, hhid, hcnt1, hcnt2⟩ := ih org h0 h1
        have hstep := processFilesGo_cons_valueError sanitize org outputPath fileDescriptions
          silent logFile f rest m org hhf herr
        rw [heq] at hstep
        refine ⟨ops, _, _, hstep, hsub.cons f, hhid, ?_, ?_⟩
        · intro hsil
          rw [List.filter_cons_of_pos (by simp [hh])]
          subst hsil
          simp only [if_false, List.length_cons, Bool.false_eq_true]
          have := hcnt1 rfl
          omega
        · intro hlog
          rw [List.filter_cons_of_pos (by simp [hh])]
          obtain ⟨lf, hlf⟩ := Option.isSome_iff_exists.mp hlog
          subst hlf
          simp only [List.length_cons]
          have := hcnt2 rfl
          omega

/-! ## Claim theorems -/

/-- C1: within one run (any sequence of allocate-and-record calls starting
from the empty assigned-ID set), the sequence numbers returned for any fixed
category are pairwise strictly increasing in call order — hence never
repeated and never reused, even across the floor gap. -/
theorem jd_C1_sequence_numbers_strictly_increasing (category : Nat)
    (cats : List Nat) :
    List.Pairwise (· < ·) (succFor category (runAlloc cats []).1) :=
  (runAlloc_invariant category cats [] (initMax category)
    (le_of_eq (maxAssigned_nil category (initMax category)).symm)).2

/-- C3: for a regular category (floor 10, ceiling 99) with no prior
assignments, 91 consecutive allocation requests return exactly the sequence
numbers 10–99 followed by one failure, and the failing call raises the
exhaustion `ValueError`. -/
theorem jd_C3_ninety_allocations_then_exhaustion (c : Nat) (hc : 10 ≤ c) :
    (runAlloc (List.replicate 91 c) []).1 =
      ((List.range 90).map fun i => (c, some (10 + i))) ++ [(c, none)] ∧
    getNextAvailableId (runAlloc (List.replicate 90 c) []).2 c =
      .error ("Category " ++ natToStr c ++ " has reached maximum of 90 items (.10-.99)") := by
  constructor
  · have h := runAlloc_replicate c hc 91 0 (by omega) (by omega)
    rw [stateK_zero] at h
    simpa using h
  · have hstate := runAlloc_replicate_state c hc 90 0 (by omega)
    rw [stateK_zero] at hstate
    rw [hstate]
    refine getNextAvailableId_err _ _ hc ?_
    rw [nextIdNum_stateK c hc 90 (by omega)]
    omega

/-- Witness for C3, at the concrete category 12. -/
theorem jd_C3_witness :
    (10 ≤ 12) ∧
    ((runAlloc (List.replicate 91 12) []).1 =
      ((List.range 90).map fun i => (12, some (10 + i))) ++ [(12, none)] ∧
     getNextAvailableId (runAlloc (List.replicate 90 12) []).2 12 =
      .error ("Category " ++ natToStr 12 ++ " has reached maximum of 90 items (.10-.99)")) :=
  ⟨by omega, jd_C3_ninety_allocations_then_exhaustion 12 (by omega)⟩

/-- C4: with the default registry, the first keyword of the fixed ordered
table that occurs as a substring of the lower-cased concatenation of the
content description and the base name determines the categorizer's result,
short-circuiting everything after it. -/
theorem jd_C4_first_keyword_determines_category (org : Organizer)
    (h0 : org.categories = defaultCategories)
    (filePath contentDescription kw : String) (cat : Nat)
    (h : suggestions.find?
        (fun kv => pyInStr kv.1 (textToCheck filePath contentDescription)) =
      some (kw, cat)) :
    suggestCategorization org filePath contentDescription =
      ((if 10 ≤ cat then cat / 10 * 10 else 0), cat,
       (defaultCategories.lookup cat).getD "") := by
  have hfind : findSuggestion org.categories
      (textToCheck filePath contentDescription) = some (kw, cat) := by
    unfold findSuggestion
    rw [h0, find?_and_of_all _ _ _ suggestions_targets_default]
    exact h
  unfold suggestCategorization
  dsimp only
  rw [hfind, h0]

/-- Witness for C4: the keyword-match scenario of the spec. -/
theorem jd_C4_witness :
    (suggestions.find?
        (fun kv => pyInStr kv.1 (textToCheck "bank_statement.pdf" "my bank statement for March")) =
      some ("bank", 12)) ∧
    suggestCategorization defaultOrganizer "bank_statement.pdf" "my bank statement for March" =
      (10, 12, "Money") :=
  ⟨by decide,
   (jd_C4_first_keyword_determines_category defaultOrganizer rfl
      "bank_statement.pdf" "my bank statement for March" "bank" 12 (by decide)).trans
    (by decide)⟩

/-- C2 counterexample: `diagram.png` with empty description resolves to the
plain default category `(10, 10, "Me")`, exactly as a file with an
unrecognized extension does — the categorizer consults no extension table
before falling back to the default. -/
theorem jd_C2_counterexample :
    suggestCategorization defaultOrganizer "diagram.png" "" = (10, 10, "Me") ∧
    suggestCategorization defaultOrganizer "mystery.xyz" "" = (10, 10, "Me") := by
  decide

/-- C2 (amended): with the default registry, a file whose description and
base name contain no keyword of the table categorizes directly to the
default category; the lower-cased extension is computed by the source but
never consulted. -/
theorem jd_C2_no_extension_step (org : Organizer)
    (h0 : org.categories = defaultCategories) (filePath contentDescription : String)
    (h : findSuggestion defaultCategories (textToCheck filePath contentDescription) = none) :
    suggestCategorization org filePath contentDescription = (10, 10, "Me") := by
  unfold suggestCategorization
  dsimp only
  rw [h0, h]
  rfl

/-- Witness for C2's amended claim: the `diagram.png` scenario. -/
theorem jd_C2_witness :
    (findSuggestion defaultCategories (textToCheck "diagram.png" "") = none) ∧
    suggestCategorization defaultOrganizer "diagram.png" "" = (10, 10, "Me") :=
  ⟨by decide, jd_C2_no_extension_step defaultOrganizer rfl "diagram.png" "" (by decide)⟩

/-- C5: when no keyword matches and at least one regular (≥ 10) category is
defined, the categorizer returns the numerically smallest defined regular
category together with its containing area; that category is minimal among
all defined regular categories and its area is minimal among their areas.
The categorizer is a total function, so this default is deterministic and
never an error. -/
theorem jd_C5_smallest_category_default (org : Organizer)
    (filePath contentDescription : String)
    (hnone : findSuggestion org.categories (textToCheck filePath contentDescription) = none)
    (hreg : (org.categories.filter fun kv => 10 ≤ kv.1) ≠ []) :
    suggestCategorization org filePath contentDescription =
      (minKeys (org.categories.filter fun kv => 10 ≤ kv.1) / 10 * 10,
       minKeys (org.categories.filter fun kv => 10 ≤ kv.1),
       ((org.categories.filter fun kv => 10 ≤ kv.1).lookup
         (minKeys (org.categories.filter fun kv => 10 ≤ kv.1))).getD "") ∧
    minKeys (org.categories.filter fun kv => 10 ≤ kv.1) ∈ org.categories.map Prod.fst ∧
    10 ≤ minKeys (org.categories.filter fun kv => 10 ≤ kv.1) ∧
    (∀ kv ∈ org.categories, 10 ≤ kv.1 →
      minKeys (org.categories.filter fun kv => 10 ≤ kv.1) ≤ kv.1) ∧
    (∀ kv ∈ org.categories, 10 ≤ kv.1 →
      minKeys (org.categories.filter fun kv => 10 ≤ kv.1) / 10 * 10 ≤ kv.1 / 10 * 10) := by
  have hcat_ne : org.categories ≠ [] := by
    intro hc
    exact hreg (by simp [hc])
  have hmem : minKeys (org.categories.filter fun kv => 10 ≤ kv.1) ∈
      (org.categories.filter fun kv => 10 ≤ kv.1).map Prod.fst :=
    minKeys_mem _ hreg
  obtain ⟨kv0, hkv0_mem, hkv0_eq⟩ := List.mem_map.mp hmem
  have hkv0_cat : kv0 ∈ org.categories := List.mem_of_mem_filter hkv0_mem
  have hkv0_ge : 10 ≤ kv0.1 := by
    have := (List.mem_filter.mp hkv0_mem).2
    exact of_decide_eq_true this
  have hlb : ∀ kv ∈ org.categories, 10 ≤ kv.1 →
      minKeys (org.categories.filter fun kv => 10 ≤ kv.1) ≤ kv.1 := by
    intro kv hkv h10
    exact minKeys_le _ kv (List.mem_filter.mpr ⟨hkv, decide_eq_true h10⟩)
  refine ⟨?_, ?_, ?_, hlb, ?_⟩
  · unfold suggestCategorization
    dsimp only
    rw [hnone]
    have h1 : org.categories.isEmpty = false := by
      cases hc : org.categories with
      | nil => exact absurd hc hcat_ne
      | cons a l => rfl
    have h2 : (org.categories.filter fun kv => 10 ≤ kv.1).isEmpty = false := by
      cases hc : org.categories.filter fun kv => 10 ≤ kv.1 with
      | nil => exact absurd hc hreg
      | cons a l => rfl
    simp only [h1, h2, Bool.false_eq_true, if_false]
  · rw [← hkv0_eq]
    exact List.mem_map.mpr ⟨kv0, hkv0_cat, rfl⟩
  · rw [← hkv0_eq]; exact hkv0_ge
  · intro kv hkv h10
    have := hlb kv hkv h10
    omega

/-- Witness for C5: the full-fallback scenario `mystery.xyz`. -/
theorem jd_C5_witness :
    (findSuggestion defaultOrganizer.categories (textToCheck "mystery.xyz" "") = none) ∧
    ((defaultOrganizer.categories.filter fun kv => 10 ≤ kv.1) ≠ []) ∧
    suggestCategorization defaultOrganizer "mystery.xyz" "" = (10, 10, "Me") := by
  have h := jd_C5_smallest_category_default defaultOrganizer "mystery.xyz" ""
    (by decide) (by decide)
  exact ⟨by decide, by decide, h.1.trans (by decide)⟩

/-- `_validate_areas` passes exactly when the area count is within bound and
every area number is a multiple of 10 in `[10, 90]`. -/
theorem validateAreas_none_iff (l : List (Nat × String)) :
    validateAreas l = none ↔
      (l.length ≤ 9 ∧ ∀ kv ∈ l, kv.1 % 10 = 0 ∧ 10 ≤ kv.1 ∧ kv.1 ≤ 90) := by
  unfold validateAreas
  by_cases h : l.length > 9
  · rw [if_pos h]
    constructor
    · intro hc; cases hc
    · rintro ⟨h1, _⟩; omega
  · rw [if_neg h, List.findSome?_eq_none_iff]
    constructor
    · intro hall
      refine ⟨by omega, ?_⟩
      intro kv hkv
      have hk := hall kv hkv
      by_cases hbad : kv.1 % 10 ≠ 0 ∨ kv.1 < 10 ∨ kv.1 > 90
      · rw [if_pos hbad] at hk; cases hk
      · omega
    · rintro ⟨_, hall⟩ kv hkv
      obtain ⟨ha, hb, hc⟩ := hall kv hkv
      rw [if_neg (by omega)]

/-- Construction raises exactly when `_validate_areas` raises. -/
theorem initOrganizer_error_iff (customAreas customCategories : Option (List (Nat × String))) :
    (∃ e, initOrganizer customAreas customCategories = .error e) ↔
      validateAreas (resolveOpt customAreas defaultAreas) ≠ none := by
  unfold initOrganizer
  cases hv : validateAreas (resolveOpt customAreas defaultAreas) with
  | some e => simp [hv]
  | none => simp [hv]

/-- C8: registry construction fails with the configuration `ValueError` iff
the (defaulted) area mapping has more than 9 areas or contains an area number
that is not a multiple of 10 within `[10, 90]`; with no mappings supplied it
succeeds with the built-in default set. -/
theorem jd_C8_registry_validation (customAreas customCategories : Option (List (Nat × String)))
    (_hnodup : ((resolveOpt customAreas defaultAreas).map Prod.fst).Nodup) :
    ((∃ e, initOrganizer customAreas customCategories = .error e) ↔
      (9 < (resolveOpt customAreas defaultAreas).length ∨
        ∃ kv ∈ resolveOpt customAreas defaultAreas,
          ¬(kv.1 % 10 = 0 ∧ 10 ≤ kv.1 ∧ kv.1 ≤ 90))) ∧
    initOrganizer none none = .ok defaultOrganizer := by
  refine ⟨?_, rfl⟩
  rw [initOrganizer_error_iff, Ne, validateAreas_none_iff]
  constructor
  · intro hne
    by_cases hl : 9 < (resolveOpt customAreas defaultAreas).length
    · exact Or.inl hl
    · right
      by_contra hno
      push_neg at hno
      exact hne ⟨by omega, fun kv hkv => by
        have := hno kv hkv
        omega⟩
  · rintro (hl | ⟨kv, hkv, hbad⟩) ⟨h1, h2⟩
    · omega
    · exact hbad (h2 kv hkv)

/-- Witness for C8: a supplied mapping containing the invalid area number 25
makes construction fail. -/
theorem jd_C8_witness :
    (((resolveOpt (some [(10, "A"), (25, "B")]) defaultAreas).map Prod.fst).Nodup) ∧
    (∃ e, initOrganizer (some [(10, "A"), (25, "B")]) none = .error e) := by
  have h := jd_C8_registry_validation (some [(10, "A"), (25, "B")]) none (by decide)
  refine ⟨by decide, h.1.mpr ?_⟩
  right
  exact ⟨(25, "B"), by decide, by decide⟩

/-- C9: categorization is pure and idempotent — the state-threaded call
leaves the organizer untouched, repeating the call yields the same triple,
and the result does not depend on the assigned-ID set (only on the registry
and the string inputs). -/
theorem jd_C9_categorization_pure (areasL catsL : List (Nat × String))
    (asg asg' : List String) (filePath contentDescription : String) :
    (suggestCategorizationS ⟨areasL, catsL, asg⟩ filePath contentDescription).2 =
      ⟨areasL, catsL, asg⟩ ∧
    (suggestCategorizationS
        ((suggestCategorizationS ⟨areasL, catsL, asg⟩ filePath contentDescription).2)
        filePath contentDescription).1 =
      (suggestCategorizationS ⟨areasL, catsL, asg⟩ filePath contentDescription).1 ∧
    suggestCategorization ⟨areasL, catsL, asg⟩ filePath contentDescription =
      suggestCategorization ⟨areasL, catsL, asg'⟩ filePath contentDescription :=
  ⟨rfl, rfl, rfl⟩


/-- C6: an allocated (area, category, categoryName, id, description) with a
regular area renders its folder path as
`"{area}-{area+9} {areaName}/{category} {categoryName}"`, the system area
renders as the fixed literal `"00-09 System"` with a two-digit category
prefix, and the orchestrator's file name is
`"{id} {sanitizedDescription}{originalExtension}"` with the original
extension preserved verbatim, including its case. -/
theorem jd_C6_path_and_filename_rendering (sanitize : String → Nat → String)
    (org : Organizer) (filePath contentDescription : String) :
    (∀ (area cat : Nat) (catName areaName idStr : String),
      suggestCategorization org filePath contentDescription = (area, cat, catName) →
      10 ≤ area →
      org.areas.lookup area = some areaName →
      '/' ∉ areaName.data →
      getNextAvailableId org.assigned cat = .ok idStr →
      assignId sanitize org filePath contentDescription none =
        (.ok (idStr,
              natToStr area ++ "-" ++ natToStr (area + 9) ++ " " ++ areaName ++ "/" ++
                natToStr cat ++ " " ++ catName,
              sanitizedDescription sanitize filePath contentDescription),
         { org with assigned := idStr :: org.assigned })) ∧
    (∀ (cat : Nat) (nm idStr : String),
      cat ≤ 9 →
      org.categories.lookup cat = some nm →
      getNextAvailableId org.assigned cat = .ok idStr →
      assignId sanitize org filePath contentDescription (some cat) =
        (.ok (idStr, "00-09 System" ++ "/" ++ (pad2str cat ++ " " ++ nm),
              sanitizedDescription sanitize filePath contentDescription),
         { org with assigned := idStr :: org.assigned })) ∧
    (∀ (outputPath : String) (fileDescriptions : List (String × String))
        (silent : Bool) (logFile : Option String) (rest : List String)
        (jdId folderPath description : String) (org' : Organizer)
        (ops : List Operation) (warns logs : List String),
      pyStartsWith (pyBasename filePath) "." = false →
      assignId sanitize org filePath ((fileDescriptions.lookup filePath).getD "") none =
        (.ok (jdId, folderPath, description), org') →
      processFilesGo sanitize org' outputPath fileDescriptions silent logFile rest =
        .ok (ops, warns, logs) →
      processFilesGo sanitize org outputPath fileDescriptions silent logFile
          (filePath :: rest) =
        .ok ({ source := filePath,
               destination := pyJoin (pyJoin outputPath folderPath)
                 (jdId ++ " " ++ description ++ (pySplitext filePath).2),
               linkType := "hardlink", folderName := folderPath,
               newFileName := jdId ++ " " ++ description ++ (pySplitext filePath).2,
               jdId := jdId,
               jdexEntry := generateJdexEntry jdId description
                 (pyJoin (pyJoin outputPath folderPath)
                   (jdId ++ " " ++ description ++ (pySplitext filePath).2)) } :: ops,
             warns, logs)) := by
  refine ⟨?_, ?_, ?_⟩
  · intro area cat catName areaName idStr hs h10 hlook hslash halloc
    have heq := assignId_ok_regular sanitize org filePath contentDescription
      area cat catName areaName idStr hs (by omega) hlook halloc
    rw [heq]
    have hjoin : pyJoin (natToStr area ++ "-" ++ natToStr (area + 9) ++ " " ++ areaName)
        (natToStr cat ++ " " ++ catName) =
        natToStr area ++ "-" ++ natToStr (area + 9) ++ " " ++ areaName ++ "/" ++
          (natToStr cat ++ " " ++ catName) := by
      refine pyJoin_eq_slash _ _ ?_ ?_ ?_
      · exact data_ne_nil_left _ _ (data_ne_nil_left _ _ (data_ne_nil_left _ _
          (data_ne_nil_left _ _
            (show (natToStr area).data ≠ [] from natToChars_ne_nil area))))
      · exact folder_last_ne_slash _ _ (getLast?_append_space _) hslash
      · exact catFolder_head_ne_slash cat catName
    rw [hjoin]
    simp only [string_append_assoc]
  · intro cat nm idStr hcat hlook halloc
    have heq := assignId_ok_system sanitize org filePath contentDescription
      cat nm idStr hcat hlook halloc
    rw [heq]
    have hjoin : pyJoin "00-09 System" (pad2str cat ++ " " ++ nm) =
        "00-09 System" ++ "/" ++ (pad2str cat ++ " " ++ nm) := by
      refine pyJoin_eq_slash _ _ (by decide) (by decide) ?_
      exact sysFolder_head_ne_slash cat nm
    rw [hjoin]
  · intro outputPath fileDescriptions silent logFile rest jdId folderPath description
      org' ops warns logs hh hok hrest
    have hstep := processFilesGo_cons_ok sanitize org outputPath fileDescriptions
      silent logFile filePath rest jdId folderPath description org' hh hok
    rw [hrest] at hstep
    exact hstep

/-- Witness for C6: `Report.PDF` with an empty description lands in
`10-19 Life admin/10 Me` as `10.10 Report.PDF`, the upper-case extension
preserved verbatim. -/
theorem jd_C6_witness :
    (suggestCategorization defaultOrganizer "Report.PDF" "" = (10, 10, "Me")) ∧
    ((10 : Nat) ≤ 10) ∧
    (defaultOrganizer.areas.lookup 10 = some "Life admin") ∧
    ('/' ∉ "Life admin".data) ∧
    (getNextAvailableId defaultOrganizer.assigned 10 = .ok "10.10") ∧
    assignId (fun s _ => s) defaultOrganizer "Report.PDF" "" none =
      (.ok ("10.10",
            natToStr 10 ++ "-" ++ natToStr (10 + 9) ++ " " ++ "Life admin" ++ "/" ++
              natToStr 10 ++ " " ++ "Me",
            sanitizedDescription (fun s _ => s) "Report.PDF" ""),
       { defaultOrganizer with assigned := "10.10" :: defaultOrganizer.assigned }) ∧
    processFilesGo (fun s _ => s) defaultOrganizer "out" [] false none ["Report.PDF"] =
      .ok ([{ source := "Report.PDF",
              destination := "out/10-19 Life admin/10 Me/10.10 Report.PDF",
              linkType := "hardlink", folderName := "10-19 Life admin/10 Me",
              newFileName := "10.10 Report.PDF", jdId := "10.10",
              jdexEntry := generateJdexEntry "10.10" "Report"
                "out/10-19 Life admin/10 Me/10.10 Report.PDF" }],
           [], []) := by
  have hc := jd_C6_path_and_filename_rendering (fun s _ => s) defaultOrganizer "Report.PDF" ""
  have h1 := hc.1 10 10 "Me" "Life admin" "10.10" (by decide) (by omega) (by decide)
    (by decide) rfl
  have h3 := hc.2.2 "out" [] false none [] "10.10" "10-19 Life admin/10 Me" "Report"
    { defaultOrganizer with assigned := "10.10" :: defaultOrganizer.assigned }
    [] [] [] (by decide) (by rfl) rfl
  exact ⟨by decide, by omega, by decide, by decide, rfl, h1, h3.trans (by rfl)⟩

/-- C7 (amended): the orchestrator with the default registry never aborts;
its operation list holds exactly one record per successfully processed file,
in input order; hidden files and allocation-failed files are absent; and on
every enabled diagnostic channel (printing when not silent, the log when a
log file is given) each skipped file leaves one message, so operation count
plus per-channel diagnostic count equals the number of non-hidden inputs. -/
theorem jd_C7_operation_list_and_diagnostics (sanitize : String → Nat → String)
    (filePaths : List String) (outputPath : String)
    (fileDescriptions : List (String × String)) (silent : Bool)
    (logFile : Option String) :
    ∃ ops warns logs,
      processFilesJohnnyDecimal sanitize filePaths outputPath fileDescriptions
        none none silent logFile = .ok (ops, warns, logs) ∧
      (ops.map Operation.source).Sublist filePaths ∧
      (∀ op ∈ ops, isHidden op.source = false) ∧
      (silent = false →
        ops.length + warns.length = (filePaths.filter fun f => !isHidden f).length) ∧
      (logFile.isSome = true →
        ops.length + logs.length = (filePaths.filter fun f => !isHidden f).length) :=
  processFilesGo_default_props sanitize outputPath fileDescriptions silent logFile
    filePaths defaultOrganizer rfl rfl

/-- Witness for C7's amended claim at a concrete input. -/
theorem jd_C7_witness :
    ∃ ops warns logs,
      processFilesJohnnyDecimal (fun s _ => s) [".hidden", "bank.txt"] "out" []
        none none false none = .ok (ops, warns, logs) ∧
      (ops.map Operation.source).Sublist [".hidden", "bank.txt"] ∧
      (∀ op ∈ ops, isHidden op.source = false) ∧
      (false = false →
        ops.length + warns.length =
          (List.filter (fun f => !isHidden f) [".hidden", "bank.txt"]).length) ∧
      ((none : Option String).isSome = true →
        ops.length + logs.length =
          (List.filter (fun f => !isHidden f) [".hidden", "bank.txt"]).length) :=
  jd_C7_operation_list_and_diagnostics (fun s _ => s) [".hidden", "bank.txt"] "out" []
    false none

set_option maxHeartbeats 4000000 in
set_option maxRecDepth 100000 in
/-- C7 counterexample: in silent mode with no log file, a run of 91 files all
routed to one category skips the 91st file (90 operations for 91 inputs) with
no warning recorded anywhere — the skip is silently dropped. -/
theorem jd_C7_counterexample :
    (List.replicate 91 "bank.txt").length = 91 ∧
    (opsOf (processFilesJohnnyDecimal (fun s _ => s) (List.replicate 91 "bank.txt")
      "out" [] none none true none)).length = 90 ∧
    warnsOf (processFilesJohnnyDecimal (fun s _ => s) (List.replicate 91 "bank.txt")
      "out" [] none none true none) = [] ∧
    logsOf (processFilesJohnnyDecimal (fun s _ => s) (List.replicate 91 "bank.txt")
      "out" [] none none true none) = [] := by
  decide

/-- C10: a failed allocation in `assign_id` raises before any mutation — the
organizer state (registry and assigned-ID set) is exactly as before the
call — and the orchestrator's operation records for the remaining files are
the same as if the failing file had never been presented. -/
theorem jd_C10_allocation_failure_atomic (sanitize : String → Nat → String)
    (org : Organizer) (filePath : String) :
    (∀ (contentDescription : String) (hint : Option Nat) (m : String) (org' : Organizer),
      assignId sanitize org filePath contentDescription hint =
        (.error (.valueError m), org') →
      org' = org) ∧
    (∀ (outputPath : String) (fileDescriptions : List (String × String))
        (silent : Bool) (logFile : Option String) (rest : List String) (m : String),
      assignId sanitize org filePath ((fileDescriptions.lookup filePath).getD "") none =
        (.error (.valueError m), org) →
      opsOf (processFilesGo sanitize org outputPath fileDescriptions silent logFile
        (filePath :: rest)) =
      opsOf (processFilesGo sanitize org outputPath fileDescriptions silent logFile rest)) := by
  constructor
  · intro contentDescription hint m org' h
    exact assignId_valueError_state sanitize org filePath contentDescription hint m org' h
  · intro outputPath fileDescriptions silent logFile rest m herr
    by_cases hh : pyStartsWith (pyBasename filePath) "." = true
    · rw [processFilesGo_cons_hidden sanitize org outputPath fileDescriptions silent
        logFile filePath rest hh]
    · have hstep := processFilesGo_cons_valueError sanitize org outputPath fileDescriptions
        silent logFile filePath rest m org (by simpa using hh) herr
      rw [hstep]
      cases hr : processFilesGo sanitize org outputPath fileDescriptions silent logFile rest with
      | ok v =>
        rcases v with ⟨ops, warns, logs⟩
        rfl
      | error e => rfl

set_option maxRecDepth 100000 in
/-- Witness for C10: with category 12 exhausted, processing `bank.txt` fails,
leaves the organizer untouched, and the remaining file list produces the same
operations as if `bank.txt` had never been presented. -/
theorem jd_C10_witness :
    (assignId (fun s _ => s) exhaustedOrganizer "bank.txt" "" none =
      (.error (.valueError "Category 12 has reached maximum of 90 items (.10-.99)"),
       exhaustedOrganizer)) ∧
    opsOf (processFilesGo (fun s _ => s) exhaustedOrganizer "out" [] false none
      ["bank.txt", "trip.txt"]) =
    opsOf (processFilesGo (fun s _ => s) exhaustedOrganizer "out" [] false none
      ["trip.txt"]) := by
  have h1 : assignId (fun s _ => s) exhaustedOrganizer "bank.txt" "" none =
      (.error (.valueError "Category 12 has reached maximum of 90 items (.10-.99)"),
       exhaustedOrganizer) := by rfl
  exact ⟨h1, (jd_C10_allocation_failure_atomic (fun s _ => s) exhaustedOrganizer
    "bank.txt").2 "out" [] false none ["trip.txt"] _ h1⟩
